import Mathlib

/-!
Verification of the katana block-production core and its marshalling
utilities against their specification.

Part 1 embeds the pure marshalling utilities of
`src/katana-core/src/util.rs` (`starkfelt_to_u128`,
`field_element_to_starkfelt`, `convert_blockifier_tx_to_starknet_api_tx`).
Felts and field values are modelled as natural numbers / byte lists;
a Rust panic (`expect`) is modelled as `Option.none`, a typed `Err` as
`Except.error`.

Part 2 models the `IntervalBlockProducer` state machine.  Its
implementation is not among the given source files (only its test file
`src/crates/katana/core/src/service/block_producer_tests.rs` is), so the
producer is modelled from the spec (sections 3-5) and the observable
fields the tests exercise (`timer`, `queued`, `ongoing_execution`,
`ongoing_mining`).
-/

namespace Katana

/-! ### Byte-level model of `StarkFelt` (32 big-endian bytes) -/

/-- A `StarkFelt` as `starknet_api` stores it: 32 bytes, big-endian.
Bytes are naturals below 256. -/
structure StarkFelt where
  bytes : List Nat
  hlen : bytes.length = 32
  hlt : ∀ b ∈ bytes, b < 256

/-- `u128::from_be_bytes`: big-endian byte list to a natural number. -/
def u128FromBeBytes (l : List Nat) : Nat :=
  l.foldl (fun acc b => acc * 256 + b) 0

/-- `<&[u8] as TryInto<[u8; 16]>>::try_into`: succeeds exactly when the
slice has length 16. -/
def u128_try_from_bytes (l : List Nat) : Option (List Nat) :=
  if l.length = 16 then some l else none

/-- The errors of `util.rs` that the claims mention.
`StarknetApiError::OutOfRange` carries a rendering of the offending
value; we keep the value's bytes. -/
inductive UtilError where
  | OutOfRange (value_bytes : List Nat)
deriving DecidableEq

/-- `size_of::<StarkFelt>() - size_of::<u128>()` = 32 - 16. -/
def COMPLIMENT_OF_U128 : Nat := 32 - 16

/-- `starkfelt_to_u128` from `src/katana-core/src/util.rs` lines 129-145.
`felt.bytes().split_at(COMPLIMENT_OF_U128)` yields the leading 16 bytes
(`take`) and the trailing 16 (`drop`).  The `expect` on the success path
is modelled as `Option.none` (a panic); the `Err` as `Except.error`. -/
def starkfelt_to_u128 (felt : StarkFelt) : Option (Except UtilError Nat) :=
  let rest := felt.bytes.take COMPLIMENT_OF_U128
  let u128_bytes := felt.bytes.drop COMPLIMENT_OF_U128
  if rest ≠ List.replicate COMPLIMENT_OF_U128 0 then
    some (Except.error (UtilError.OutOfRange felt.bytes))
  else
    match u128_try_from_bytes u128_bytes with
    | some bs => some (Except.ok (u128FromBeBytes bs))
    | none => none

/-! ### `FieldElement` and `field_element_to_starkfelt` -/

/-- The Stark prime `2^251 + 17 * 2^192 + 1`: every `FieldElement` value
is strictly below it. -/
def STARK_PRIME : Nat := 2 ^ 251 + 17 * 2 ^ 192 + 1

/-- A `starknet::core::types::FieldElement`: a field element of the
Stark field, always reduced below the prime. -/
structure FieldElement where
  val : Nat
  hlt : val < STARK_PRIME

/-- `FieldElement::to_bytes_be`: the 32 big-endian bytes of the value. -/
def toBytesBe (n : Nat) : List Nat :=
  (List.range 32).map (fun i => n / 256 ^ (31 - i) % 256)

theorem toBytesBe_length (n : Nat) : (toBytesBe n).length = 32 := by
  simp [toBytesBe]

theorem toBytesBe_lt (n : Nat) : ∀ b ∈ toBytesBe n, b < 256 := by
  intro b hb
  simp only [toBytesBe, List.mem_map] at hb
  obtain ⟨i, -, rfl⟩ := hb
  exact Nat.mod_lt _ (by norm_num)

/-- `StarkFelt::new` from `starknet_api`: accepts 32 bytes whose most
significant nibble is zero (`bytes[0] < 0x10`), else `OutOfRange`. -/
def StarkFelt.new (bytes : List Nat) (hlen : bytes.length = 32)
    (hlt : ∀ b ∈ bytes, b < 256) : Except UtilError StarkFelt :=
  if bytes.headI < 16 then Except.ok ⟨bytes, hlen, hlt⟩
  else Except.error (UtilError.OutOfRange bytes)

/-- `field_element_to_starkfelt` from `src/katana-core/src/util.rs`
lines 124-127: `StarkFelt::new(field_element.to_bytes_be()).expect(..)`.
The `expect` is modelled as `Option.none` (a panic). -/
def field_element_to_starkfelt (field_element : FieldElement) : Option StarkFelt :=
  match StarkFelt.new (toBytesBe field_element.val) (toBytesBe_length _)
      (toBytesBe_lt _) with
  | Except.ok f => some f
  | Except.error _ => none

theorem toBytesBe_headI (n : Nat) : (toBytesBe n).headI = n / 256 ^ 31 % 256 := rfl

/-! ### Transaction conversion (`convert_blockifier_tx_to_starknet_api_tx`)

Felt-valued fields (`Nonce`, `Fee`, `ContractAddress`, hashes, ...) are
modelled as naturals; `Calldata` and `TransactionSignature` as lists of
naturals.  The blockifier invoke transaction is modelled through exactly
the accessor surface `util.rs` consumes (`nonce()`, `max_fee()`,
`calldata()`, `signature()`, `sender_address()`, `transaction_hash()`),
as projections, together with the version it carries. -/

/-- `starknet_api::transaction::InvokeTransactionV1`. -/
structure InvokeTransactionV1 where
  transaction_hash : Nat
  max_fee : Nat
  signature : List Nat
  nonce : Nat
  sender_address : Nat
  calldata : List Nat
deriving DecidableEq

/-- `starknet_api::transaction::InvokeTransactionV0`. -/
structure InvokeTransactionV0 where
  transaction_hash : Nat
  max_fee : Nat
  signature : List Nat
  contract_address : Nat
  entry_point_selector : Nat
  calldata : List Nat
deriving DecidableEq

/-- `starknet_api::transaction::InvokeTransaction`. -/
inductive InvokeTransaction where
  | V0 (tx : InvokeTransactionV0)
  | V1 (tx : InvokeTransactionV1)
deriving DecidableEq

/-- `starknet_api::transaction::DeclareTransactionV0V1`: the shared
payload of Declare V0 and V1. -/
structure DeclareTransactionV0V1 where
  transaction_hash : Nat
  max_fee : Nat
  signature : List Nat
  nonce : Nat
  class_hash : Nat
  sender_address : Nat
deriving DecidableEq

/-- `starknet_api::transaction::DeclareTransactionV2`. -/
structure DeclareTransactionV2 where
  transaction_hash : Nat
  max_fee : Nat
  signature : List Nat
  nonce : Nat
  class_hash : Nat
  compiled_class_hash : Nat
  sender_address : Nat
deriving DecidableEq

/-- `starknet_api::transaction::DeclareTransaction`. -/
inductive DeclareTransaction where
  | V0 (tx : DeclareTransactionV0V1)
  | V1 (tx : DeclareTransactionV0V1)
  | V2 (tx : DeclareTransactionV2)
deriving DecidableEq

/-- `starknet_api::transaction::DeployAccountTransaction`. -/
structure DeployAccountTransaction where
  transaction_hash : Nat
  max_fee : Nat
  version : Nat
  signature : List Nat
  nonce : Nat
  class_hash : Nat
  contract_address : Nat
  contract_address_salt : Nat
  constructor_calldata : List Nat
deriving DecidableEq

/-- `starknet_api::transaction::L1HandlerTransaction`. -/
structure L1HandlerTransaction where
  transaction_hash : Nat
  version : Nat
  nonce : Nat
  contract_address : Nat
  entry_point_selector : Nat
  calldata : List Nat
deriving DecidableEq

/-- `blockifier`'s invoke account transaction, seen through the accessors
`util.rs` calls plus the version it carries (which the conversion does
not inspect). -/
structure BlockifierInvokeTransaction where
  version : Nat
  transaction_hash : Nat
  max_fee : Nat
  signature : List Nat
  nonce : Nat
  sender_address : Nat
  calldata : List Nat
deriving DecidableEq

/-- `blockifier::transaction::account_transaction::AccountTransaction`.
The blockifier `DeclareTransaction { tx, .. }` wraps the `starknet_api`
declare payload, which is all the conversion reads. -/
inductive AccountTransaction where
  | Invoke (tx : BlockifierInvokeTransaction)
  | DeployAccount (tx : DeployAccountTransaction)
  | Declare (tx : DeclareTransaction)
deriving DecidableEq

/-- `blockifier::transaction::transaction_execution::Transaction`. -/
inductive BlockifierTransaction where
  | AccountTransaction (tx : AccountTransaction)
  | L1HandlerTransaction (tx : L1HandlerTransaction)
deriving DecidableEq

/-- `starknet_api::transaction::Transaction`. -/
inductive Transaction where
  | Declare (tx : DeclareTransaction)
  | DeployAccount (tx : DeployAccountTransaction)
  | Invoke (tx : InvokeTransaction)
  | L1Handler (tx : L1HandlerTransaction)
deriving DecidableEq

/-- `convert_blockifier_tx_to_starknet_api_tx` from
`src/katana-core/src/util.rs` lines 35-116, match arm for match arm. -/
def convert_blockifier_tx_to_starknet_api_tx
    (transaction : BlockifierTransaction) : Transaction :=
  match transaction with
  | BlockifierTransaction.AccountTransaction tx =>
    match tx with
    | AccountTransaction.Invoke tx =>
      Transaction.Invoke (InvokeTransaction.V1
        { nonce := tx.nonce
          max_fee := tx.max_fee
          calldata := tx.calldata
          signature := tx.signature
          sender_address := tx.sender_address
          transaction_hash := tx.transaction_hash })
    | AccountTransaction.DeployAccount tx =>
      Transaction.DeployAccount
        { nonce := tx.nonce
          max_fee := tx.max_fee
          version := tx.version
          class_hash := tx.class_hash
          signature := tx.signature
          transaction_hash := tx.transaction_hash
          contract_address := tx.contract_address
          contract_address_salt := tx.contract_address_salt
          constructor_calldata := tx.constructor_calldata }
    | AccountTransaction.Declare (DeclareTransaction.V0 tx) =>
      Transaction.Declare (DeclareTransaction.V0
        { nonce := tx.nonce
          max_fee := tx.max_fee
          class_hash := tx.class_hash
          signature := tx.signature
          sender_address := tx.sender_address
          transaction_hash := tx.transaction_hash })
    | AccountTransaction.Declare (DeclareTransaction.V1 tx) =>
      Transaction.Declare (DeclareTransaction.V1
        { nonce := tx.nonce
          max_fee := tx.max_fee
          class_hash := tx.class_hash
          signature := tx.signature
          sender_address := tx.sender_address
          transaction_hash := tx.transaction_hash })
    | AccountTransaction.Declare (DeclareTransaction.V2 tx) =>
      Transaction.Declare (DeclareTransaction.V2
        { nonce := tx.nonce
          max_fee := tx.max_fee
          class_hash := tx.class_hash
          signature := tx.signature
          sender_address := tx.sender_address
          transaction_hash := tx.transaction_hash
          compiled_class_hash := tx.compiled_class_hash })
  | BlockifierTransaction.L1HandlerTransaction tx =>
    Transaction.L1Handler
      { nonce := tx.nonce
        version := tx.version
        calldata := tx.calldata
        transaction_hash := tx.transaction_hash
        contract_address := tx.contract_address
        entry_point_selector := tx.entry_point_selector }

/-! ## Part 2: the `IntervalBlockProducer` state machine

Modelled from the spec: the implementation of `IntervalBlockProducer`
(the Producer of spec section 4.2, with `force_mine`, the mining timer
and the WAIT/EXECUTE/MINE cycle) is not among the given source files —
only its test file is.  The model below follows the spec's data model
(section 3), state machine (section 4) and concurrency model
(section 5), and exposes the fields the tests read: `timer`, `queued`,
`ongoing_execution`, `ongoing_mining`. -/

/-- A transaction with its content-derived identity
(`ExecutableTxWithHash`); only the identity matters to the Producer. -/
structure PoolTx where
  hash : Nat
deriving DecidableEq

/-- A batch: an ordered group of transactions submitted together. -/
abbrev Batch := List PoolTx

/-- A committed (non-genesis) block: its number and its transactions in
execution order. -/
structure Block where
  number : Nat
  transactions : List PoolTx
deriving DecidableEq

/-- The Backend's durable storage surface the Producer consumes:
`latest_number` is the authoritative chain head, `blocks` the committed
non-genesis blocks in commit order. -/
structure Backend where
  latest_number : Nat
  blocks : List Block
deriving DecidableEq

/-- The backend right after `init_genesis()`: genesis is block 0, so
`latest_number = 0` and no non-genesis block exists yet. -/
def genesisBackend : Backend :=
  { latest_number := 0, blocks := [] }

/-- Result of a successful cycle: the committed block number and the
transactions it includes. -/
structure MinedOutcome where
  block_number : Nat
  txs : List PoolTx
deriving DecidableEq

/-- Modelled from the spec: the sealing collaborator's atomic commit —
the single durable mutation of a cycle.  Assigns `latest_number + 1`,
appends the block, reports the new head. -/
def Backend.commitBlock (b : Backend) (txs : List PoolTx) :
    Backend × MinedOutcome :=
  let n := b.latest_number + 1
  ({ latest_number := n, blocks := b.blocks ++ [{ number := n, transactions := txs }] },
   { block_number := n, txs := txs })

/-- A cycle's failure, as the Producer reports it (spec section 7). -/
inductive CycleError where
  | ExecutionError
  | SealingError
deriving DecidableEq

/-- What one poll of the Producer yields: suspension, a mined block, or
a failed cycle. -/
inductive PollResult where
  | Pending
  | Mined (outcome : MinedOutcome)
  | Failed (e : CycleError)
deriving DecidableEq

/-- The mined outcome a poll result carries, if any. -/
def PollResult.minedOutcome : PollResult → Option MinedOutcome
  | PollResult.Mined o => some o
  | _ => none

/-- The external collaborators' behaviour during one poll: whether the
execution / sealing futures are resolved yet and whether they succeed.
The noop executor of the tests is `Env.allReady`. -/
structure Env where
  execReady : Bool
  execOk : Bool
  sealReady : Bool
  sealOk : Bool
deriving DecidableEq

/-- Every future resolves immediately and succeeds (the tests' noop
executor and ephemeral storage). -/
def Env.allReady : Env :=
  { execReady := true, execOk := true, sealReady := true, sealOk := true }

/-- No in-flight future resolves during this poll: the cycle stays
suspended at EXECUTE or MINE. -/
def Env.stalled : Env :=
  { execReady := false, execOk := true, sealReady := false, sealOk := true }

/-- Modelled from the spec: the `IntervalBlockProducer` state.
`interval = some d` is `Interval(d)` mode, `none` is `Instant`;
`timer` holds the armed deadline; `ongoing_execution` /
`ongoing_mining` are the at-most-one in-flight EXECUTE / MINE slots,
each carrying the cycle's drained transaction list. -/
structure IntervalBlockProducer where
  interval : Option Nat
  backend : Backend
  queued : List Batch
  timer : Option Nat
  ongoing_execution : Option (List PoolTx)
  ongoing_mining : Option (List PoolTx)
deriving DecidableEq

/-- `IntervalBlockProducer::new(backend, interval)`: fresh producer,
nothing queued, timer unarmed, no in-flight work. -/
def IntervalBlockProducer.new (backend : Backend) (interval : Option Nat) :
    IntervalBlockProducer :=
  { interval := interval
    backend := backend
    queued := []
    timer := none
    ongoing_execution := none
    ongoing_mining := none }

/-- `push_back`: O(1) append of a batch to the queue's tail. -/
def IntervalBlockProducer.push_back (p : IntervalBlockProducer) (b : Batch) :
    IntervalBlockProducer :=
  { p with queued := p.queued ++ [b] }

/-- Modelled from the spec: the MINE phase.  If sealing is in flight and
the seal future resolves, commit atomically and clear timer and slots
(success), or clear state leaving storage untouched (failure); else stay
suspended. -/
def pollSeal (p : IntervalBlockProducer) (env : Env) :
    IntervalBlockProducer × PollResult :=
  match p.ongoing_mining with
  | some txs =>
    if env.sealReady then
      if env.sealOk then
        let (b, o) := p.backend.commitBlock txs
        ({ p with ongoing_mining := none, timer := none, backend := b },
         PollResult.Mined o)
      else
        ({ p with ongoing_mining := none, timer := none },
         PollResult.Failed CycleError.SealingError)
    else (p, PollResult.Pending)
  | none => (p, PollResult.Pending)

/-- Modelled from the spec: the EXECUTE phase.  If execution is in
flight and its future resolves, hand the outcome to MINE (success) or
abort the cycle clearing timer and slots (failure); else stay
suspended.  With no execution in flight, fall through to MINE. -/
def pollExec (p : IntervalBlockProducer) (env : Env) :
    IntervalBlockProducer × PollResult :=
  match p.ongoing_execution with
  | some txs =>
    if env.execReady then
      if env.execOk then
        pollSeal { p with ongoing_execution := none, ongoing_mining := some txs } env
      else
        ({ p with ongoing_execution := none, timer := none },
         PollResult.Failed CycleError.ExecutionError)
    else (p, PollResult.Pending)
  | none => pollSeal p env

/-- Modelled from the spec: one poll of the Producer at time `now`.
With a cycle in flight, advance it as far as `env` allows.  Otherwise
(WAIT): an armed timer that has not elapsed suspends; an elapsed timer
drains the whole queue into one ordered list and starts the cycle; with
no timer, a non-empty queue arms the timer in `Interval` mode (deadline
`now + d`) and merely waits in `Instant` mode. -/
def poll (p : IntervalBlockProducer) (now : Nat) (env : Env) :
    IntervalBlockProducer × PollResult :=
  if p.ongoing_execution.isSome || p.ongoing_mining.isSome then
    pollExec p env
  else
    match p.timer with
    | some deadline =>
      if now < deadline then (p, PollResult.Pending)
      else
        pollExec { p with ongoing_execution := some p.queued.flatten, queued := [] } env
    | none =>
      if p.queued.isEmpty then (p, PollResult.Pending)
      else
        match p.interval with
        | some d => ({ p with timer := some (now + d) }, PollResult.Pending)
        | none => (p, PollResult.Pending)

/-- Modelled from the spec: `force_mine()` — synchronously run one full
cycle on whatever is queued (possibly nothing), bypassing mode and
timer: drain the queue, execute, seal, commit exactly one block. -/
def IntervalBlockProducer.force_mine (p : IntervalBlockProducer) :
    IntervalBlockProducer × MinedOutcome :=
  let txs := p.queued.flatten
  let (b, o) := p.backend.commitBlock txs
  ({ p with queued := [], backend := b, timer := none }, o)

/-- One externally driven step on the Producer: a push, a forced cycle,
or a poll at some time under some collaborator behaviour. -/
inductive Op where
  | push (b : Batch)
  | force
  | poll (now : Nat) (env : Env)
deriving DecidableEq

/-- Apply one step, keeping the resulting producer. -/
def stepOp (p : IntervalBlockProducer) (op : Op) : IntervalBlockProducer :=
  match op with
  | Op.push b => p.push_back b
  | Op.force => p.force_mine.1
  | Op.poll now env => (poll p now env).1

/-- Run a sequence of steps on a fresh producer over a fresh chain. -/
def run (interval : Option Nat) (ops : List Op) : IntervalBlockProducer :=
  ops.foldl stepOp (IntervalBlockProducer.new genesisBackend interval)

/-! ## Helper lemmas for the producer -/

/-- The chain-shape invariant: the committed non-genesis block numbers
are exactly `1, 2, ..., latest_number`. -/
def chainGood (b : Backend) : Prop :=
  b.blocks.map Block.number = List.range' 1 b.latest_number

theorem commitBlock_chainGood (b : Backend) (txs : List PoolTx) (h : chainGood b) :
    chainGood (b.commitBlock txs).1 := by
  simp only [chainGood, Backend.commitBlock, List.map_append, List.map_cons,
    List.map_nil] at h ⊢
  rw [h, List.range'_1_concat]
  simp [Nat.add_comm]

theorem pollSeal_cases (p : IntervalBlockProducer) (env : Env) :
    ((pollSeal p env).1.backend = p.backend ∧ (pollSeal p env).2.minedOutcome = none) ∨
    (∃ txs, (pollSeal p env).1.backend = (p.backend.commitBlock txs).1 ∧
      (pollSeal p env).2.minedOutcome = some (p.backend.commitBlock txs).2) := by
  rcases hm : p.ongoing_mining with - | txs
  · left; simp [pollSeal, hm, PollResult.minedOutcome]
  · rcases hr : env.sealReady with - | -
    · left; simp [pollSeal, hm, hr, PollResult.minedOutcome]
    · rcases ho : env.sealOk with - | -
      · left; simp [pollSeal, hm, hr, ho, PollResult.minedOutcome]
      · right
        exact ⟨txs, by simp [pollSeal, hm, hr, ho, PollResult.minedOutcome]⟩

theorem pollExec_cases (p : IntervalBlockProducer) (env : Env) :
    ((pollExec p env).1.backend = p.backend ∧ (pollExec p env).2.minedOutcome = none) ∨
    (∃ txs, (pollExec p env).1.backend = (p.backend.commitBlock txs).1 ∧
      (pollExec p env).2.minedOutcome = some (p.backend.commitBlock txs).2) := by
  rcases he : p.ongoing_execution with - | txs
  · have h := pollSeal_cases p env
    simpa [pollExec, he] using h
  · rcases hr : env.execReady with - | -
    · left; simp [pollExec, he, hr, PollResult.minedOutcome]
    · rcases ho : env.execOk with - | -
      · left; simp [pollExec, he, hr, ho, PollResult.minedOutcome]
      · have h := pollSeal_cases
          { p with ongoing_execution := none, ongoing_mining := some txs } env
        simpa [pollExec, he, hr, ho] using h

theorem poll_cases (p : IntervalBlockProducer) (now : Nat) (env : Env) :
    ((poll p now env).1.backend = p.backend ∧ (poll p now env).2.minedOutcome = none) ∨
    (∃ txs, (poll p now env).1.backend = (p.backend.commitBlock txs).1 ∧
      (poll p now env).2.minedOutcome = some (p.backend.commitBlock txs).2) := by
  by_cases hg : p.ongoing_execution.isSome || p.ongoing_mining.isSome
  · have h := pollExec_cases p env
    simpa [poll, hg] using h
  · rcases ht : p.timer with - | deadline
    · by_cases hq : p.queued.isEmpty
      · left; simp [poll, hg, ht, hq, PollResult.minedOutcome]
      · rcases hi : p.interval with - | d
        · left; simp [poll, hg, ht, hq, hi, PollResult.minedOutcome]
        · left; simp [poll, hg, ht, hq, hi, PollResult.minedOutcome]
    · by_cases hn : now < deadline
      · left; simp [poll, hg, ht, hn, PollResult.minedOutcome]
      · have h := pollExec_cases
          { p with ongoing_execution := some p.queued.flatten, queued := [] } env
        simpa [poll, hg, ht, hn] using h

theorem stepOp_backend (p : IntervalBlockProducer) (op : Op) :
    (stepOp p op).backend = p.backend ∨
    ∃ txs, (stepOp p op).backend = (p.backend.commitBlock txs).1 := by
  match op with
  | Op.push b => exact Or.inl rfl
  | Op.force => exact Or.inr ⟨p.queued.flatten, rfl⟩
  | Op.poll now env =>
    rcases poll_cases p now env with ⟨hb, -⟩ | ⟨txs, hb, -⟩
    · exact Or.inl hb
    · exact Or.inr ⟨txs, hb⟩

theorem foldl_stepOp_chainGood (ops : List Op) (p : IntervalBlockProducer)
    (h : chainGood p.backend) : chainGood (ops.foldl stepOp p).backend := by
  induction ops generalizing p with
  | nil => exact h
  | cons op rest ih =>
    refine ih _ ?_
    rcases stepOp_backend p op with he | ⟨txs, he⟩
    · rw [he]; exact h
    · rw [he]; exact commitBlock_chainGood _ _ h

theorem pushAll_queued (p : IntervalBlockProducer) (batches : List Batch) :
    (batches.foldl IntervalBlockProducer.push_back p).queued = p.queued ++ batches := by
  induction batches generalizing p with
  | nil => simp
  | cons b rest ih =>
    simp only [List.foldl_cons, ih, IntervalBlockProducer.push_back]
    simp

/-! ## The claims -/

/-- C1: across any sequence of pushes, forced cycles and polls on one
Producer over a fresh chain (genesis at block 0), the committed block
numbers are exactly `1, 2, ..., latest_number` — strictly increasing,
gapless, starting at 1.  Moreover a poll that yields a `MinedOutcome`
increases `latest_number` by exactly 1 and numbers the block
`latest_number + 1`, and no single step moves `latest_number` by
anything other than 0 or +1 (so it never decreases and never skips). -/
theorem committed_blocks_gapless (interval : Option Nat) (ops : List Op) :
    ((run interval ops).backend.blocks.map Block.number =
      List.range' 1 (run interval ops).backend.latest_number) ∧
    (∀ (p : IntervalBlockProducer) (now : Nat) (env : Env) (o : MinedOutcome),
      (poll p now env).2.minedOutcome = some o →
        o.block_number = p.backend.latest_number + 1 ∧
        (poll p now env).1.backend.latest_number = p.backend.latest_number + 1) ∧
    (∀ (p : IntervalBlockProducer) (op : Op),
      (stepOp p op).backend.latest_number = p.backend.latest_number ∨
      (stepOp p op).backend.latest_number = p.backend.latest_number + 1) := by
  refine ⟨?_, ?_, ?_⟩
  · exact foldl_stepOp_chainGood ops _
      (by simp [chainGood, genesisBackend, IntervalBlockProducer.new])
  · intro p now env o ho
    rcases poll_cases p now env with ⟨-, hn⟩ | ⟨txs, hb, hm⟩
    · rw [hn] at ho; cases ho
    · rw [hm] at ho
      obtain rfl := Option.some.injEq _ _ ▸ ho
      constructor
      · rfl
      · rw [hb]; rfl
  · intro p op
    rcases stepOp_backend p op with he | ⟨txs, he⟩
    · exact Or.inl (by rw [he])
    · exact Or.inr (by rw [he]; rfl)

/-- The one test transaction of the C2 scenario (`Felt::ONE`). -/
def traceTx : PoolTx := { hash := 1 }

/-- C2's producer after pushing one batch onto a fresh Interval(1000)
producer. -/
def traceP1 : IntervalBlockProducer :=
  (IntervalBlockProducer.new genesisBackend (some 1000)).push_back [traceTx]

/-- C2's producer after the first poll (at time 0), which arms the
timer. -/
def traceP2 : IntervalBlockProducer := (poll traceP1 0 Env.allReady).1

/-- C2: on a fresh Interval-mode producer whose timer is empty, pushing
one batch and polling arms the timer (deadline `0 + 1000`) without
producing an outcome; polling again before the interval elapses (at
time 500) produces no outcome and leaves the whole producer — timer
included — untouched; polling once the interval has elapsed (at time
1000) yields a `MinedOutcome` with `block_number = 1` carrying the
pushed transaction, and the timer is cleared afterward. -/
theorem interval_mine_after_timer :
    (IntervalBlockProducer.new genesisBackend (some 1000)).timer = none ∧
    (poll traceP1 0 Env.allReady).2 = PollResult.Pending ∧
    traceP2.timer = some 1000 ∧
    poll traceP2 500 Env.allReady = (traceP2, PollResult.Pending) ∧
    (poll traceP2 1000 Env.allReady).2 =
      PollResult.Mined { block_number := 1, txs := [traceTx] } ∧
    (poll traceP2 1000 Env.allReady).1.timer = none := by
  decide

/-- C3: on a fresh chain at genesis (`latest_number = 0`), `force_mine()`
with an empty queue commits exactly one new block: afterwards
`latest_number = 1`, the outcome is a `MinedOutcome` for block 1, and
storage holds exactly the one new (empty) block. -/
theorem interval_force_mine_without_transactions :
    (IntervalBlockProducer.new genesisBackend none).queued = [] ∧
    (IntervalBlockProducer.new genesisBackend none).backend.latest_number = 0 ∧
    (IntervalBlockProducer.new genesisBackend none).force_mine.1.backend.latest_number = 1 ∧
    (IntervalBlockProducer.new genesisBackend none).force_mine.2.block_number = 1 ∧
    (IntervalBlockProducer.new genesisBackend none).force_mine.1.backend.blocks =
      [{ number := 1, transactions := [] }] := by
  decide

/-- C4: nothing is durably mutated before the sealing phase's single
commit step — any poll that does not yield a `MinedOutcome` (it
suspends at the timer, EXECUTE or MINE, or the cycle fails) leaves the
backend storage, and hence `latest_number`, exactly as it was; so
discarding the Producer while a cycle is suspended never changes
`latest_number`. -/
theorem poll_no_outcome_frame (p : IntervalBlockProducer) (now : Nat) (env : Env)
    (h : (poll p now env).2.minedOutcome = none) :
    (poll p now env).1.backend = p.backend := by
  rcases poll_cases p now env with ⟨hb, -⟩ | ⟨txs, -, hm⟩
  · exact hb
  · rw [h] at hm; cases hm

/-- A producer suspended at EXECUTE: one cycle's transaction list is in
flight, nothing sealed yet. -/
def suspendedAtExecute : IntervalBlockProducer :=
  { interval := some 1000
    backend := genesisBackend
    queued := []
    timer := some 1000
    ongoing_execution := some [traceTx]
    ongoing_mining := none }

/-- Witness for C4: polling a producer suspended at EXECUTE while the
execution future stays unresolved leaves the backend untouched. -/
theorem poll_no_outcome_frame_witness :
    (poll suspendedAtExecute 0 Env.stalled).1.backend = suspendedAtExecute.backend :=
  poll_no_outcome_frame suspendedAtExecute 0 Env.stalled (by decide)

/-- C5: pushing any sequence of batches before a cycle starts leaves the
queue holding exactly those batches in push order; a forced cycle drains
them all into one block whose transactions are the batches flattened —
batch FIFO order first, then intra-batch order — and a timer-triggered
cycle (timer armed and elapsed, nothing in flight) likewise mines a
block containing exactly the flattened queue. -/
theorem txs_in_push_order (interval : Option Nat) (batches : List Batch) :
    ((batches.foldl IntervalBlockProducer.push_back
        (IntervalBlockProducer.new genesisBackend interval)).queued = batches) ∧
    ((batches.foldl IntervalBlockProducer.push_back
        (IntervalBlockProducer.new genesisBackend interval)).force_mine.2.txs =
      batches.flatten) ∧
    (∀ (p : IntervalBlockProducer) (now deadline : Nat),
      p.ongoing_execution = none → p.ongoing_mining = none →
      p.timer = some deadline → deadline ≤ now →
      (poll p now Env.allReady).2.minedOutcome =
        some { block_number := p.backend.latest_number + 1, txs := p.queued.flatten }) := by
  have hq : (batches.foldl IntervalBlockProducer.push_back
      (IntervalBlockProducer.new genesisBackend interval)).queued = batches := by
    rw [pushAll_queued]; rfl
  refine ⟨hq, ?_, ?_⟩
  · simp [IntervalBlockProducer.force_mine, Backend.commitBlock, hq]
  · intro p now deadline hexec hmine ht hle
    simp [poll, hexec, hmine, ht, Nat.not_lt.mpr hle, pollExec, pollSeal,
      Env.allReady, Backend.commitBlock, PollResult.minedOutcome]

/-- C6: a freshly constructed Producer in Instant mode (no interval),
before any poll occurs, has an unarmed timer, an empty transaction
queue, and neither the execution nor the sealing in-flight slot
occupied. -/
theorem instant_initial_state (backend : Backend) :
    (IntervalBlockProducer.new backend none).interval = none ∧
    (IntervalBlockProducer.new backend none).timer = none ∧
    (IntervalBlockProducer.new backend none).queued = [] ∧
    (IntervalBlockProducer.new backend none).ongoing_execution = none ∧
    (IntervalBlockProducer.new backend none).ongoing_mining = none :=
  ⟨rfl, rfl, rfl, rfl, rfl⟩

/-- C7: `starkfelt_to_u128` fails precisely when the felt's high-order
bytes beyond the 16-byte u128 width are non-zero: when the leading
`size_of::<StarkFelt>() - 16 = 16` bytes are all zero it returns `Ok`
of the big-endian u128 read from the remaining 16 bytes, and when any
leading byte is non-zero it returns an `OutOfRange` error. -/
theorem starkfelt_to_u128_range (felt : StarkFelt) :
    (felt.bytes.take COMPLIMENT_OF_U128 = List.replicate COMPLIMENT_OF_U128 0 →
      starkfelt_to_u128 felt =
        some (Except.ok (u128FromBeBytes (felt.bytes.drop COMPLIMENT_OF_U128)))) ∧
    (felt.bytes.take COMPLIMENT_OF_U128 ≠ List.replicate COMPLIMENT_OF_U128 0 →
      starkfelt_to_u128 felt =
        some (Except.error (UtilError.OutOfRange felt.bytes))) := by
  have hdrop : (felt.bytes.drop COMPLIMENT_OF_U128).length = 16 := by
    simp [List.length_drop, felt.hlen, COMPLIMENT_OF_U128]
  constructor
  · intro h
    simp [starkfelt_to_u128, h, u128_try_from_bytes, hdrop]
  · intro h
    simp [starkfelt_to_u128, h]

/-- C8: `starkfelt_to_u128` is total on every `StarkFelt`: it always
returns a value — `Ok` or a typed `OutOfRange` error — and never
reaches the panic, because the split of 32 bytes at index 16 always
leaves exactly 16 bytes, so the `try_into` behind the `expect` always
succeeds. -/
theorem starkfelt_to_u128_total (felt : StarkFelt) :
    starkfelt_to_u128 felt ≠ none ∧
    u128_try_from_bytes (felt.bytes.drop COMPLIMENT_OF_U128) =
      some (felt.bytes.drop COMPLIMENT_OF_U128) := by
  have hdrop : (felt.bytes.drop COMPLIMENT_OF_U128).length = 16 := by
    simp [List.length_drop, felt.hlen, COMPLIMENT_OF_U128]
  have htry : u128_try_from_bytes (felt.bytes.drop COMPLIMENT_OF_U128) =
      some (felt.bytes.drop COMPLIMENT_OF_U128) := by
    simp [u128_try_from_bytes, hdrop]
  refine ⟨?_, htry⟩
  by_cases h : felt.bytes.take COMPLIMENT_OF_U128 = List.replicate COMPLIMENT_OF_U128 0
  · simp [starkfelt_to_u128, h, htry]
  · simp [starkfelt_to_u128, h]

/-- C9: every blockifier invoke account transaction converts to an
`InvokeTransaction::V1` whatever version the input carries (the version
is not carried over), with `transaction_hash`, `nonce`, `max_fee`,
`signature`, `calldata` and `sender_address` equal to the input's; and
Declare V0 and Declare V1 inputs both map to the same
`DeclareTransactionV0V1` payload, unchanged, under their respective
variants. -/
theorem convert_invoke_always_v1 :
    (∀ tx : BlockifierInvokeTransaction,
      convert_blockifier_tx_to_starknet_api_tx
        (BlockifierTransaction.AccountTransaction (AccountTransaction.Invoke tx)) =
      Transaction.Invoke (InvokeTransaction.V1
        { transaction_hash := tx.transaction_hash
          max_fee := tx.max_fee
          signature := tx.signature
          nonce := tx.nonce
          sender_address := tx.sender_address
          calldata := tx.calldata })) ∧
    (∀ d : DeclareTransactionV0V1,
      convert_blockifier_tx_to_starknet_api_tx
        (BlockifierTransaction.AccountTransaction
          (AccountTransaction.Declare (DeclareTransaction.V0 d))) =
        Transaction.Declare (DeclareTransaction.V0 d) ∧
      convert_blockifier_tx_to_starknet_api_tx
        (BlockifierTransaction.AccountTransaction
          (AccountTransaction.Declare (DeclareTransaction.V1 d))) =
        Transaction.Declare (DeclareTransaction.V1 d)) :=
  ⟨fun _ => rfl, fun _ => ⟨rfl, rfl⟩⟩

/-- C10: `field_element_to_starkfelt` is total: for every
`FieldElement` — whose value lies below the 252-bit Stark prime —
`StarkFelt::new` applied to its 32 big-endian bytes succeeds (the most
significant nibble is zero), so the `expect` branch is never taken and
the function returns the felt with exactly those bytes. -/
theorem field_element_to_starkfelt_total (fe : FieldElement) :
    ∃ f, field_element_to_starkfelt fe = some f ∧ f.bytes = toBytesBe fe.val := by
  have hle : fe.val < 16 * 256 ^ 31 := by
    have := fe.hlt
    have h2 : STARK_PRIME ≤ 16 * 256 ^ 31 := by norm_num [STARK_PRIME]
    omega
  have hhead : (toBytesBe fe.val).headI < 16 := by
    rw [toBytesBe_headI]
    calc fe.val / 256 ^ 31 % 256 ≤ fe.val / 256 ^ 31 := Nat.mod_le _ _
      _ < 16 := by
        rw [Nat.div_lt_iff_lt_mul (by positivity)]
        omega
  refine ⟨⟨toBytesBe fe.val, toBytesBe_length _, toBytesBe_lt _⟩, ?_, rfl⟩
  simp [field_element_to_starkfelt, StarkFelt.new, hhead]

end Katana
